import Mathlib

/-!
Shallow embedding of `src/app/models.py` (flask-blog data model):
permission bit flags, `Role` with its seeding routines, `User` with
credential hashing, confirmation tokens, gravatar URLs, and `Post`
with its markdown/bleach sanitization pipeline.

Python integers are modelled as `Nat` (all bitmasks are non-negative),
nullable columns as `Option`, and fallible Python code (code that can
raise) as `Except PyErr`.  External library primitives (werkzeug
password hashing, `hashlib.md5`, itsdangerous timed serializers,
markdown/bleach) are modelled as executable Lean functions whose doc
comments state exactly what is modelled.
-/

namespace FlaskBlog

/-- Python exception values that the modelled code can raise. -/
inductive PyErr where
  | attributeError (msg : String)
  | typeError
  | badSignature
  | signatureExpired
deriving DecidableEq

/-! Permission bit constants from `class Permission` in models.py. -/

namespace Permission

def FOLLOW : Nat := 0x01

def COMMENT : Nat := 0x02

def WRITE_ARTICLES : Nat := 0x04

def MODERATE_COMMENTS : Nat := 0x08

def ADMINISTRATOR : Nat := 0xff

end Permission

/-- List of the five defined permission constants. -/
def definedPermissions : List Nat :=
  [Permission.FOLLOW, Permission.COMMENT, Permission.WRITE_ARTICLES,
   Permission.MODERATE_COMMENTS, Permission.ADMINISTRATOR]

/-- A committed row of the `roles` table: `name` is a nullable unique
string column, `default` is a boolean column with column default
`False`, `permissions` is a nullable integer column (no default, so a
row inserted without an explicit value holds NULL, modelled `none`). -/
structure Role where
  name : Option String
  default : Bool
  permissions : Option Nat
deriving DecidableEq

/-- An injective code of a character: `c.toNat + 1`, in `[1, 1114112]`. -/
def codeChar (c : Char) : Nat := c.toNat + 1

/-- An injective code of a character list (base-1114112 digits in
`[1, 1114112]`, least significant first). -/
def codeList : List Char → Nat
  | [] => 0
  | c :: cs => codeChar c + 1114112 * codeList cs

/-- An injective code of a string. -/
def strCode (s : String) : Nat := codeList s.data

/-- Model of the digest computed by werkzeug's password hashing: a
salted digest of the password.  The cryptographic hash is modelled as
an executable injective pairing of salt and password codes; the
development relies only on the digest being determined by (and, as the
library's design intends, collision-free in) its inputs. -/
def pwDigest (salt password : String) : Nat :=
  Nat.pair (strCode salt) (strCode password)

/-- A stored password hash string `method$salt$digest`, modelled as the
salt together with the digest (the method tag carries no information). -/
structure PWHash where
  salt : String
  digest : Nat
deriving DecidableEq

/-- Model of `werkzeug.security.generate_password_hash`: draw a salt
(passed here explicitly, since the library draws it at random) and
store it next to the salted digest of the password.  The plaintext
itself is not part of the result. -/
def generate_password_hash (salt password : String) : PWHash :=
  ⟨salt, pwDigest salt password⟩

/-- Model of `werkzeug.security.check_password_hash`: recompute the
digest of the candidate with the stored salt and compare. -/
def check_password_hash (h : PWHash) (password : String) : Bool :=
  h.digest == pwDigest h.salt password

/-- A committed row of the `users` table, with the role reference
resolved to the `itsrole` relationship object as the Python code uses
it.  All nullable columns are `Option`; timestamps are abstract `Nat`. -/
structure User where
  id : Option Nat
  username : Option String
  email : Option String
  itsrole : Option Role
  password_hash : Option PWHash
  confirmed : Bool
  name : Option String
  location : Option String
  about_me : Option String
  member_since : Option Nat
  last_seen : Option Nat
deriving DecidableEq

/-- `User.can` from models.py:
`self.itsrole is not None and (self.itsrole.permissions & permissions) == permissions`.
When no role is assigned the `and` short-circuits to `False`; when the
role's `permissions` column is NULL, `None & permissions` raises
`TypeError`. -/
def User.can (u : User) (permissions : Nat) : Except PyErr Bool :=
  match u.itsrole with
  | none => .ok false
  | some r =>
    match r.permissions with
    | none => .error .typeError
    | some rp => .ok ((rp &&& permissions) == permissions)

/-- `User.is_administrator` from models.py. -/
def User.is_administrator (u : User) : Except PyErr Bool :=
  u.can Permission.ADMINISTRATOR

/-- Reading the `password` property from models.py:
`raise AttributeError('password is not a readable attribute')`,
unconditionally. -/
def User.password (_ : User) : Except PyErr String :=
  .error (.attributeError "password is not a readable attribute")

/-- The `password` setter from models.py:
`self.password_hash = generate_password_hash(password)` (the salt the
library draws internally is passed explicitly here). -/
def User.setPassword (u : User) (salt password : String) : User :=
  { u with password_hash := some (generate_password_hash salt password) }

/-- `User.verify_password` from models.py:
`check_password_hash(self.password_hash, password)`; with a NULL
stored hash the library raises (modelled `TypeError`). -/
def User.verify_password (u : User) (password : String) : Except PyErr Bool :=
  match u.password_hash with
  | none => .error .typeError
  | some h => .ok (check_password_hash h password)

/-- One iteration of the loop body of `Role.insert_roles` for a role
named `n` with canonical permissions `p` and default-flag `d`:
`Role.query.filter_by(name=n).first()` finds the first row named `n`
and its `permissions`/`default` columns are overwritten; if no row is
named `n` a fresh `Role(name=n)` with those columns is added (appended
at the end of the table). -/
def setRole (n : String) (p : Nat) (d : Bool) : List Role → List Role
  | [] => [⟨some n, d, some p⟩]
  | r :: rs =>
    if r.name = some n then { r with default := d, permissions := some p } :: rs
    else r :: setRole n p d rs

/-- `Role.insert_roles` from models.py: upsert the three canonical
roles in the dict's insertion order `User`, `Moderare`,
`Administrator` with their canonical bitmasks, `default` true only
for `User`. -/
def Role.insert_roles (catalog : List Role) : List Role :=
  setRole "Administrator" 0xff false
    (setRole "Moderare"
      (Permission.FOLLOW ||| Permission.COMMENT |||
       Permission.WRITE_ARTICLES ||| Permission.MODERATE_COMMENTS) false
      (setRole "User"
        (Permission.FOLLOW ||| Permission.COMMENT ||| Permission.WRITE_ARTICLES) true
        catalog))

/-- `Role.seed` from models.py: add rows named `Guests` and
`Administrator` with no explicit `permissions` or `default`; at commit
the `default` column takes its column default `False` and
`permissions` stays NULL. -/
def Role.seed (catalog : List Role) : List Role :=
  catalog ++ [⟨some "Guests", false, none⟩, ⟨some "Administrator", false, none⟩]

/-- Count of rows named `n` in a catalog. -/
def occurs (n : String) (l : List Role) : Nat :=
  l.countP (fun r => decide (r.name = some n))

/-- Count of rows with `default` true in a catalog. -/
def countDefault (l : List Role) : Nat :=
  l.countP (fun r => r.default)

/-- First row named `n` in a catalog (what `filter_by(name=n).first()`
returns). -/
def firstNamed (n : String) : List Role → Option Role
  | [] => none
  | r :: rs => if r.name = some n then some r else firstNamed n rs

/-- `Role.query.filter_by(permissions=0xff).first()`. -/
def firstPerm255 (l : List Role) : Option Role :=
  l.find? (fun r => r.permissions == some 0xff)

/-- `Role.query.filter_by(default=True).first()`. -/
def firstDefault (l : List Role) : Option Role :=
  l.find? (fun r => r.default)

/-- `User.__init__` from models.py: after the base constructor has set
the given fields, if `itsrole` is still unset, assign the first role
with permissions `0xff` when the email equals the configured
`FLASK_ADMIN` address, else the first role with `default` true; either
lookup may return `None`, leaving a null role with no error. -/
def User.init (base : User) (flaskAdmin : String) (catalog : List Role) : User :=
  match base.itsrole with
  | some _ => base
  | none =>
    if base.email = some flaskAdmin then
      { base with itsrole := firstPerm255 catalog }
    else
      { base with itsrole := firstDefault catalog }

/-- A token produced by an itsdangerous `TimedJSONWebSignatureSerializer`,
modelled by its signing key, the expiry instant baked into its header,
and the value the payload dict holds under `'confirm'` (`none` both
for a payload without that key and for `{'confirm': None}`, since
`data.get('confirm')` returns `None` in both cases); `malformed`
stands for any byte string that does not verify at all. -/
inductive Token where
  | malformed : Token
  | signed (key : String) (expiresAt : Nat) (confirmField : Option Nat) : Token
deriving DecidableEq

/-- Model of `Serializer(SECRET_KEY).loads(token)`: raises
`BadSignature` on a malformed token or a key mismatch and
`SignatureExpired` once the expiry instant has passed, otherwise
returns the payload's `'confirm'` entry. -/
def loadsTimed (key : String) (now : Nat) : Token → Except PyErr (Option Nat)
  | .malformed => .error .badSignature
  | .signed k exp payload =>
    if k ≠ key then .error .badSignature
    else if exp < now then .error .signatureExpired
    else .ok payload

/-- `User.generate_confirm_token` from models.py: sign
`{'confirm': self.id}` with the secret key, expiring `expiration`
seconds from now (default 3600). -/
def User.generate_confirm_token (u : User) (key : String) (now : Nat)
    (expiration : Nat := 3600) : Token :=
  .signed key (now + expiration) u.id

/-- `User.confirm` from models.py: any exception from `loads` yields
`False` with the user untouched; a payload whose `'confirm'` entry
differs from `self.id` yields `False` with the user untouched;
otherwise `confirmed` is set to `True`, the user is persisted, and the
result is `True`.  The returned `User` is the (possibly updated)
persisted state. -/
def User.confirm (u : User) (key : String) (now : Nat) (tok : Token) : User × Bool :=
  match loadsTimed key now tok with
  | .error _ => (u, false)
  | .ok data =>
    if data ≠ u.id then (u, false)
    else ({ u with confirmed := true }, true)

/-- Model of `hashlib.md5(bytes).hexdigest()`: an executable injective
hex digest (six hex digits per character code).  The development relies
only on the digest being injective on the inputs that occur, which the
real MD5 also is on these inputs. -/
def md5Hex (s : String) : String :=
  String.join (s.data.map (fun c =>
    let n := c.toNat
    String.mk ((List.range 6).reverse.map (fun i =>
      let d := n / 16 ^ i % 16
      Char.ofNat (if d < 10 then 48 + d else 87 + d)))))

/-- `User.gravatar` from models.py: choose the secure or insecure host
from `request.is_secure` (passed explicitly here), then build
`'{url}/{hash}?s={size}&r={rating}&d={default}'` where the hash is the
MD5 hex digest of the email exactly as stored (`self.email.encode('utf-8')`,
no lowercasing).  A NULL email raises `AttributeError` at `.encode`. -/
def User.gravatar (u : User) (is_secure : Bool) (size : Nat)
    (defaultStyle : String) (rating : String) : Except PyErr String :=
  match u.email with
  | none => .error (.attributeError "encode")
  | some e =>
    let url := if is_secure then "https://secure.gravatar.com/avatar"
               else "http://www.gravatar.com/avatar"
    .ok (url ++ "/" ++ md5Hex e ++ "?s=" ++ toString size ++
         "&r=" ++ rating ++ "&d=" ++ defaultStyle)

/-- Derived from the spec's words only (for comparison with
`User.gravatar`): the same URL but with the hash taken over the
lowercase of the email, as the spec sentence "MD5 hex digest of the
lowercase email address" prescribes. -/
def gravatarSpecLower (u : User) (is_secure : Bool) (size : Nat)
    (defaultStyle : String) (rating : String) : Except PyErr String :=
  match u.email with
  | none => .error (.attributeError "encode")
  | some e =>
    let url := if is_secure then "https://secure.gravatar.com/avatar"
               else "http://www.gravatar.com/avatar"
    .ok (url ++ "/" ++ md5Hex (String.mk (e.data.map Char.toLower)) ++ "?s=" ++
         toString size ++ "&r=" ++ rating ++ "&d=" ++ defaultStyle)

/-- An HTML token: a run of character data, or a start/end tag with
its name and (for start tags) its attribute list. -/
inductive HtmlTok where
  | text (s : String) : HtmlTok
  | tag (name : String) (attrs : List (String × String)) (closing : Bool) : HtmlTok
deriving DecidableEq

/-- Split the characters of a tag body (after `<`) at the closing `>`:
returns the tag's content and the remaining input. -/
def splitTag : List Char → List Char × List Char
  | [] => ([], [])
  | c :: rest =>
    if c = '>' then ([], rest)
    else
      let p := splitTag rest
      (c :: p.1, p.2)

theorem splitTag_length (l : List Char) : (splitTag l).2.length ≤ l.length := by
  induction l with
  | nil => simp [splitTag]
  | cons c rest ih =>
    simp only [splitTag]
    by_cases h : c = '>'
    · simp [h]
    · simp only [if_neg h, List.length_cons]
      omega

/-- Split a character list into space-separated words. -/
def wordsAux : List Char → List Char → List (List Char)
  | [], acc => [acc.reverse]
  | c :: rest, acc =>
    if c = ' ' then acc.reverse :: wordsAux rest []
    else wordsAux rest (c :: acc)

/-- Split a character list at the first `=`, if any. -/
def splitEq : List Char → List Char × Option (List Char)
  | [] => ([], none)
  | c :: rest =>
    if c = '=' then ([], some rest)
    else
      let p := splitEq rest
      (c :: p.1, p.2)

/-- Parse one whitespace-separated word of a tag body as an attribute
`name=value` pair (a bare word is an attribute with empty value). -/
def parseAttr (w : List Char) : Option (String × String) :=
  match splitEq w with
  | (k, none) => if k = [] then none else some (String.mk k, "")
  | (k, some v) => if k = [] then none else some (String.mk k, String.mk v)

/-- Interpret the content between `<` and `>` as a tag token: a
leading `/` marks an end tag; otherwise the first word is the tag name
and the remaining words are attributes. -/
def mkTag (cs : List Char) : HtmlTok :=
  match cs with
  | '/' :: rest => .tag (String.mk (rest.takeWhile (fun c => c ≠ ' '))) [] true
  | _ =>
    match (wordsAux cs []).filter (fun w => w ≠ []) with
    | [] => .tag "" [] false
    | nm :: attrWs => .tag (String.mk nm) (attrWs.filterMap parseAttr) false

/-- Fuel-indexed worker for `tokenize`; each step consumes at least one
input character, so `l.length` fuel always suffices. -/
def tokenizeFuel : Nat → List Char → List HtmlTok
  | 0, _ => []
  | _, [] => []
  | fuel + 1, c :: rest =>
    if c = '<' then
      mkTag (splitTag rest).1 :: tokenizeFuel fuel (splitTag rest).2
    else
      .text (String.mk [c]) :: tokenizeFuel fuel rest

/-- Tokenize an HTML string: `<...>` runs become tag tokens, everything
else character data (one token per character; adjacent data tokens
concatenate on rendering). -/
def tokenize (l : List Char) : List HtmlTok :=
  tokenizeFuel l.length l

/-- The `allow_tags` list passed to `bleach.clean` in
`Post.on_body_changed`. -/
def allow_tags : List String :=
  ["a", "abbr", "acronym", "b", "blockquote", "code",
   "em", "i", "li", "ol", "pre", "strong", "ul",
   "h1", "h2", "h3", "p"]

/-- The attribute allow-list `bleach.clean` applies when called, as in
models.py, without an `attributes` argument (bleach's
`ALLOWED_ATTRIBUTES` default). -/
def allowed_attributes (t : String) : List String :=
  if t = "a" then ["href", "title"]
  else if t = "abbr" then ["title"]
  else if t = "acronym" then ["title"]
  else []

/-- Model of `bleach.clean(..., tags=allow_tags, strip=True)` on a
token stream: character data is kept; a tag outside the allow-list is
removed (its inner character data remains in the stream, since only the
tag tokens are dropped); a kept tag retains only allowed attributes. -/
def bleach_clean (ts : List HtmlTok) : List HtmlTok :=
  ts.filterMap (fun t =>
    match t with
    | .text s => some (.text s)
    | .tag n attrs closing =>
      if n ∈ allow_tags then
        some (.tag n (attrs.filter (fun a => decide (a.1 ∈ allowed_attributes n))) closing)
      else none)

/-- Decide whether one character list starts the other. -/
def leadsChars : List Char → List Char → Bool
  | [], _ => true
  | _ :: _, [] => false
  | a :: as, b :: bs => a = b && leadsChars as bs

/-- Decide whether a character-data run is a bare URL. -/
def isBareURL (s : String) : Bool :=
  leadsChars "http://".data s.data || leadsChars "https://".data s.data

/-- Model of `bleach.linkify` on a token stream: a character-data run
that is a bare URL is wrapped in an anchor tag carrying it as `href`;
everything else passes through. -/
def bleach_linkify (ts : List HtmlTok) : List HtmlTok :=
  (ts.map (fun t =>
    match t with
    | .text s =>
      if isBareURL s then
        [.tag "a" [("href", s)] false, .text s, .tag "a" [] true]
      else [.text s]
    | t => [t])).flatten

/-- Render one token back to HTML text. -/
def renderTok : HtmlTok → String
  | .text s => s
  | .tag n attrs false =>
    "<" ++ n ++ String.join (attrs.map (fun a =>
      if a.2 = "" then " " ++ a.1 else " " ++ a.1 ++ "=" ++ a.2)) ++ ">"
  | .tag n _ true => "</" ++ n ++ ">"

/-- Render a token stream back to HTML text. -/
def renderToks (ts : List HtmlTok) : String :=
  String.join (ts.map renderTok)

/-- Scan for the first occurrence of `pat`: returns the input up to and
including that occurrence, and the remaining characters; if `pat` never
occurs, returns the whole input with an empty remainder. -/
def findClose (pat : List Char) : List Char → List Char × List Char
  | [] => ([], [])
  | c :: rest =>
    if leadsChars pat (c :: rest) then (pat, (c :: rest).drop pat.length)
    else
      let p := findClose pat rest
      (c :: p.1, p.2)

/-- Block-level element names (the fragment of Python-Markdown's
`BLOCK_LEVEL_ELEMENTS` relevant here; it includes `script`). -/
def blockLevelElements : List String :=
  ["script", "style", "p", "div", "pre", "blockquote",
   "h1", "h2", "h3", "h4", "h5", "h6", "ul", "ol", "li", "table"]

/-- Model of `markdown(value, output_format='html')`, restricted to the
single-line input shapes the claims use.  A line opening with a
block-level raw HTML element is handled as Python-Markdown's raw-HTML
processing does (old `HtmlBlockPreprocessor` splitting at `data_index`,
3.2+ `HTMLExtractor` stashing the element and separating what follows
with a blank line): the element through its matching close tag is
preserved verbatim as its own block, and any trailing text on the line
becomes a separate paragraph block after a blank-line separator.  Plain
text and inline HTML are wrapped in a paragraph. -/
def markdown (v : String) : String :=
  match v.data with
  | '<' :: rest =>
    let name := String.mk (rest.takeWhile (fun c => c != '>' && c != ' ' && c != '/'))
    if name ∈ blockLevelElements then
      let pat := ('<' :: '/' :: name.data) ++ ['>']
      let p := findClose pat v.data
      if p.2 = [] then v
      else String.mk p.1 ++ "\n\n<p>" ++ String.mk p.2 ++ "</p>"
    else "<p>" ++ v ++ "</p>"
  | _ => "<p>" ++ v ++ "</p>"

/-- The token stream stored (after rendering) into `body_html` by
`Post.on_body_changed`. -/
def bodyToks (v : String) : List HtmlTok :=
  bleach_linkify (bleach_clean (tokenize (markdown v).data))

/-- `Post.on_body_changed` from models.py:
`bleach.linkify(bleach.clean(markdown(value, output_format='html'), tags=allow_tags, strip=True))`. -/
def on_body_changed (v : String) : String :=
  renderToks (bodyToks v)

/-- A committed row of the `posts` table. -/
structure Post where
  id : Option Nat
  body : Option String
  body_html : Option String
  timestamp : Option Nat
  author_id : Option Nat
deriving DecidableEq

/-- Assignment to `Post.body`: the `db.event.listen(Post.body, 'set',
Post.on_body_changed)` hook recomputes `body_html` synchronously from
the new value. -/
def Post.setBody (p : Post) (v : String) : Post :=
  { p with body := some v, body_html := some (on_body_changed v) }

/-! Injectivity of the string code, used for the password round-trip. -/

theorem codeChar_pos (c : Char) : 0 < codeChar c := Nat.succ_pos _

theorem char_toNat_lt (c : Char) : c.toNat < 1114112 := by
  have h := c.valid
  simp only [UInt32.isValidChar, Nat.isValidChar] at h
  have : Char.toNat c = c.val.toNat := rfl
  rw [this]
  rcases h with h | ⟨_, h2⟩
  · omega
  · omega

theorem codeChar_le (c : Char) : codeChar c ≤ 1114112 := by
  have := char_toNat_lt c
  unfold codeChar
  omega

theorem codeList_injective : ∀ {l₁ l₂ : List Char}, codeList l₁ = codeList l₂ → l₁ = l₂ := by
  intro l₁
  induction l₁ with
  | nil =>
    intro l₂ h
    cases l₂ with
    | nil => rfl
    | cons d ds =>
      exfalso
      simp only [codeList] at h
      have := codeChar_pos d
      omega
  | cons c cs ih =>
    intro l₂ h
    cases l₂ with
    | nil =>
      exfalso
      simp only [codeList] at h
      have := codeChar_pos c
      omega
    | cons d ds =>
      simp only [codeList] at h
      have hc1 := codeChar_pos c
      have hc2 := codeChar_le c
      have hd1 := codeChar_pos d
      have hd2 := codeChar_le d
      have heq : codeChar c = codeChar d ∧ codeList cs = codeList ds := by
        constructor <;> omega
      have hcd : c = d := by
        have h3 : c.toNat = d.toNat := by
          have := heq.1
          unfold codeChar at this
          omega
        exact Char.eq_of_val_eq (UInt32.ext h3)
      rw [hcd, ih heq.2]

theorem strCode_injective {s t : String} (h : strCode s = strCode t) : s = t := by
  cases s with
  | mk d₁ =>
    cases t with
    | mk d₂ =>
      have : d₁ = d₂ := codeList_injective h
      rw [this]

theorem pwDigest_inj_password {salt s s' : String} (h : pwDigest salt s = pwDigest salt s') :
    s = s' := by
  unfold pwDigest at h
  have h2 := (Nat.pair_eq_pair.mp h).2
  exact strCode_injective h2

/-! Lemmas about `setRole`, toward the `insert_roles` invariants. -/

theorem occurs_setRole_self (n : String) (p : Nat) (d : Bool) (l : List Role) :
    occurs n (setRole n p d l) = max 1 (occurs n l) := by
  induction l with
  | nil => simp [setRole, occurs]
  | cons r rs ih =>
    by_cases h : r.name = some n
    · have hr' : ({ r with default := d, permissions := some p } : Role).name = some n := h
      simp only [setRole, if_pos h, occurs, List.countP_cons] at ih ⊢
      simp [hr', h]
    · simp only [setRole, if_neg h, occurs, List.countP_cons] at ih ⊢
      simp [h, ih]

theorem occurs_setRole_other {m n : String} (hmn : m ≠ n) (p : Nat) (d : Bool)
    (l : List Role) : occurs m (setRole n p d l) = occurs m l := by
  induction l with
  | nil => simp [setRole, occurs, List.countP_cons, Ne.symm hmn]
  | cons r rs ih =>
    by_cases h : r.name = some n
    · have hrm : ¬ (r.name = some m) := by
        rw [h]; simp [Ne.symm hmn]
      simp only [setRole, if_pos h, occurs, List.countP_cons] at ih ⊢
      try simp [h, hrm, Ne.symm hmn]
    · simp only [setRole, if_neg h, occurs, List.countP_cons] at ih ⊢
      simp [ih]

theorem occurs_zero_not_name {n : String} {l : List Role} (h : occurs n l = 0) :
    ∀ r ∈ l, r.name ≠ some n := by
  intro r hr
  have := List.countP_eq_zero.mp h r hr
  simpa using this

theorem mem_setRole {n : String} {p : Nat} {d : Bool} {l : List Role} {r : Role}
    (hocc : occurs n l ≤ 1) (hr : r ∈ setRole n p d l) :
    (r ∈ l ∧ r.name ≠ some n) ∨
    (r.name = some n ∧ r.default = d ∧ r.permissions = some p) := by
  induction l with
  | nil =>
    simp [setRole] at hr
    subst hr
    exact Or.inr ⟨rfl, rfl, rfl⟩
  | cons x xs ih =>
    by_cases h : x.name = some n
    · simp only [setRole, if_pos h] at hr
      rcases List.mem_cons.mp hr with rfl | hmem
      · exact Or.inr ⟨h, rfl, rfl⟩
      · have hocc0 : occurs n xs = 0 := by
          have h1 : occurs n (x :: xs) = occurs n xs + 1 := by
            simp [occurs, List.countP_cons, h]
          omega
        exact Or.inl ⟨List.mem_cons_of_mem _ hmem, occurs_zero_not_name hocc0 r hmem⟩
    · simp only [setRole, if_neg h] at hr
      rcases List.mem_cons.mp hr with rfl | hmem
      · exact Or.inl ⟨List.mem_cons_self _ _, h⟩
      · have hocc' : occurs n xs ≤ 1 := by
          have h1 : occurs n (x :: xs) = occurs n xs := by
            simp [occurs, List.countP_cons, h]
          omega
        rcases ih hocc' hmem with ⟨h1, h2⟩ | h2
        · exact Or.inl ⟨List.mem_cons_of_mem _ h1, h2⟩
        · exact Or.inr h2

theorem firstNamed_setRole_self (n : String) (p : Nat) (d : Bool) (l : List Role) :
    ∃ r', firstNamed n (setRole n p d l) = some r' ∧
      r'.name = some n ∧ r'.default = d ∧ r'.permissions = some p := by
  induction l with
  | nil => exact ⟨⟨some n, d, some p⟩, by simp [setRole, firstNamed], rfl, rfl, rfl⟩
  | cons x xs ih =>
    by_cases h : x.name = some n
    · refine ⟨{ x with default := d, permissions := some p }, ?_, h, rfl, rfl⟩
      have hr' : ({ x with default := d, permissions := some p } : Role).name = some n := h
      simp [setRole, h, firstNamed, hr']
    · obtain ⟨r', h1, h2, h3, h4⟩ := ih
      exact ⟨r', by simp [setRole, h, firstNamed, h1], h2, h3, h4⟩

theorem firstNamed_setRole_other {m n : String} (hmn : m ≠ n) (p : Nat) (d : Bool)
    (l : List Role) : firstNamed m (setRole n p d l) = firstNamed m l := by
  induction l with
  | nil => simp [setRole, firstNamed, Ne.symm hmn]
  | cons x xs ih =>
    by_cases h : x.name = some n
    · have hxm : ¬ (x.name = some m) := by
        rw [h]; simp [Ne.symm hmn]
      have hr' : ¬ (({ x with default := d, permissions := some p } : Role).name = some m) := hxm
      simp [setRole, h, firstNamed, hxm, hr', Ne.symm hmn]
    · by_cases hxm : x.name = some m
      · simp [setRole, h, firstNamed, hxm, hmn]
      · simp [setRole, h, firstNamed, hxm, ih, hmn]

theorem setRole_id {n : String} {p : Nat} {d : Bool} {l : List Role} {r0 : Role}
    (h : firstNamed n l = some r0) (hd : r0.default = d) (hp : r0.permissions = some p) :
    setRole n p d l = l := by
  induction l with
  | nil => simp [firstNamed] at h
  | cons x xs ih =>
    by_cases hx : x.name = some n
    · simp only [firstNamed, if_pos hx, Option.some.injEq] at h
      subst h
      simp only [setRole, if_pos hx]
      cases x
      simp_all
    · simp only [firstNamed, if_neg hx] at h
      simp [setRole, hx, ih h]

theorem insert_roles_eq (c : List Role) :
    Role.insert_roles c =
      setRole "Administrator" 255 false
        (setRole "Moderare" 15 false (setRole "User" 7 true c)) := rfl

theorem countP_eq_of_mem {α : Type} (p q : α → Bool) :
    ∀ l : List α, (∀ a ∈ l, p a = q a) → l.countP p = l.countP q := by
  intro l
  induction l with
  | nil => intro; rfl
  | cons x xs ih =>
    intro h
    simp [List.countP_cons, h x (List.mem_cons_self _ _),
      ih (fun a ha => h a (List.mem_cons_of_mem _ ha))]

theorem mem_insert_roles {c : List Role} {r : Role}
    (hU : occurs "User" c ≤ 1) (hM : occurs "Moderare" c ≤ 1)
    (hA : occurs "Administrator" c ≤ 1)
    (hr : r ∈ Role.insert_roles c) :
    (r ∈ c ∧ r.name ≠ some "User" ∧ r.name ≠ some "Moderare" ∧
      r.name ≠ some "Administrator") ∨
    (r.name = some "User" ∧ r.default = true ∧ r.permissions = some 7) ∨
    (r.name = some "Moderare" ∧ r.default = false ∧ r.permissions = some 15) ∨
    (r.name = some "Administrator" ∧ r.default = false ∧ r.permissions = some 255) := by
  rw [insert_roles_eq] at hr
  have hA2 : occurs "Administrator"
      (setRole "Moderare" 15 false (setRole "User" 7 true c)) ≤ 1 := by
    rw [occurs_setRole_other (by decide), occurs_setRole_other (by decide)]
    exact hA
  rcases mem_setRole hA2 hr with ⟨hr2, hne1⟩ | hcase
  · have hM2 : occurs "Moderare" (setRole "User" 7 true c) ≤ 1 := by
      rw [occurs_setRole_other (by decide)]
      exact hM
    rcases mem_setRole hM2 hr2 with ⟨hr3, hne2⟩ | hcase
    · rcases mem_setRole hU hr3 with ⟨hr4, hne3⟩ | hcase
      · exact Or.inl ⟨hr4, hne3, hne2, hne1⟩
      · exact Or.inr (Or.inl hcase)
    · exact Or.inr (Or.inr (Or.inl hcase))
  · exact Or.inr (Or.inr (Or.inr hcase))

theorem occurs_insert_roles_canonical {c : List Role}
    (hU : occurs "User" c ≤ 1) (hM : occurs "Moderare" c ≤ 1)
    (hA : occurs "Administrator" c ≤ 1) :
    occurs "User" (Role.insert_roles c) = 1 ∧
    occurs "Moderare" (Role.insert_roles c) = 1 ∧
    occurs "Administrator" (Role.insert_roles c) = 1 := by
  rw [insert_roles_eq]
  refine ⟨?_, ?_, ?_⟩
  · rw [occurs_setRole_other (by decide), occurs_setRole_other (by decide),
      occurs_setRole_self]
    omega
  · rw [occurs_setRole_other (by decide), occurs_setRole_self,
      occurs_setRole_other (by decide)]
    omega
  · rw [occurs_setRole_self, occurs_setRole_other (by decide),
      occurs_setRole_other (by decide)]
    omega

theorem insert_roles_idem (c : List Role) :
    Role.insert_roles (Role.insert_roles c) = Role.insert_roles c := by
  obtain ⟨rU, hU1, hU2, hU3, hU4⟩ := firstNamed_setRole_self "User" 7 true c
  obtain ⟨rM, hM1, hM2, hM3, hM4⟩ :=
    firstNamed_setRole_self "Moderare" 15 false (setRole "User" 7 true c)
  obtain ⟨rA, hA1, hA2, hA3, hA4⟩ :=
    firstNamed_setRole_self "Administrator" 255 false
      (setRole "Moderare" 15 false (setRole "User" 7 true c))
  have hfU : firstNamed "User" (Role.insert_roles c) = some rU := by
    rw [insert_roles_eq, firstNamed_setRole_other (by decide),
      firstNamed_setRole_other (by decide)]
    exact hU1
  have hfM : firstNamed "Moderare" (Role.insert_roles c) = some rM := by
    rw [insert_roles_eq, firstNamed_setRole_other (by decide)]
    exact hM1
  have hfA : firstNamed "Administrator" (Role.insert_roles c) = some rA := by
    rw [insert_roles_eq]
    exact hA1
  conv_lhs => rw [insert_roles_eq]
  rw [setRole_id hfU hU3 hU4, setRole_id hfM hM3 hM4, setRole_id hfA hA3 hA4]

/-! Sanitization safety of the cleaned token stream. -/

/-- Safety predicate on a token: character data is always safe; a tag
is safe when its name is on the `bleach.clean` allow-list and each of
its attributes is on that tag's attribute allow-list. -/
def tokSafe : HtmlTok → Prop
  | .text _ => True
  | .tag n attrs _ => n ∈ allow_tags ∧ ∀ a ∈ attrs, a.1 ∈ allowed_attributes n

theorem allowed_attributes_ne_onerror (t a : String)
    (h : a ∈ allowed_attributes t) : a ≠ "onerror" := by
  unfold allowed_attributes at h
  by_cases h1 : t = "a"
  · simp [h1] at h
    rcases h with rfl | rfl <;> decide
  · by_cases h2 : t = "abbr"
    · simp [h1, h2] at h
      subst h; decide
    · by_cases h3 : t = "acronym"
      · simp [h1, h2, h3] at h
        subst h; decide
      · simp [h1, h2, h3] at h

theorem allow_tags_ne_script (t : String) (h : t ∈ allow_tags) : t ≠ "script" := by
  intro heq
  subst heq
  simp [allow_tags] at h

theorem mem_bleach_clean_safe {ts : List HtmlTok} {t : HtmlTok}
    (h : t ∈ bleach_clean ts) : tokSafe t := by
  rcases List.mem_filterMap.mp h with ⟨x, _, hfx⟩
  cases x with
  | text s =>
    simp only [bleach_clean, Option.some.injEq] at hfx
    subst hfx
    trivial
  | tag n attrs cl =>
    by_cases hn : n ∈ allow_tags
    · simp only [if_pos hn, Option.some.injEq] at hfx
      subst hfx
      refine ⟨hn, ?_⟩
      intro a ha
      have := (List.mem_filter.mp ha).2
      simpa using this
    · simp [if_neg hn] at hfx

theorem mem_bleach_linkify_safe {ts : List HtmlTok} {t : HtmlTok}
    (hts : ∀ x ∈ ts, tokSafe x) (h : t ∈ bleach_linkify ts) : tokSafe t := by
  rcases List.mem_flatten.mp h with ⟨l, hl, htl⟩
  rcases List.mem_map.mp hl with ⟨x, hx, hfx⟩
  subst hfx
  cases x with
  | text s =>
    by_cases hurl : isBareURL s = true
    · simp only [if_pos hurl, List.mem_cons, List.mem_singleton,
        List.not_mem_nil, or_false] at htl
      rcases htl with rfl | rfl | rfl
      · refine ⟨by decide, ?_⟩
        intro a ha
        simp at ha
        subst ha
        show "href" ∈ allowed_attributes "a"
        decide
      · trivial
      · exact ⟨by decide, by intro a ha; simp at ha⟩
    · simp only [if_neg hurl, List.mem_singleton] at htl
      subst htl
      trivial
  | tag n attrs cl =>
    simp only [List.mem_singleton] at htl
    subst htl
    exact hts _ hx

theorem mem_bodyToks_safe {v : String} {t : HtmlTok} (h : t ∈ bodyToks v) :
    tokSafe t :=
  mem_bleach_linkify_safe (fun _ hx => mem_bleach_clean_safe hx) h

/-! Concrete fixtures used by witnesses and counterexamples. -/

/-- A user row with every nullable column NULL and `confirmed` false. -/
def u0 : User :=
  ⟨none, none, none, none, none, false, none, none, none, none, none⟩

/-- The canonical `User` role as `insert_roles` writes it. -/
def roleUserC : Role := ⟨some "User", true, some 7⟩

/-- The canonical `Administrator` role as `insert_roles` writes it. -/
def roleAdminC : Role := ⟨some "Administrator", false, some 255⟩

/-- The `Guests` role as `Role.seed` commits it: NULL permissions. -/
def roleGuests : Role := ⟨some "Guests", false, none⟩

/-- An unpersisted user `A` (NULL id). -/
def uA : User := { u0 with email := some "alice@example.org" }

/-- An unpersisted user `B` (NULL id), distinct from `uA`. -/
def uB : User := { u0 with email := some "bob@example.org" }

/-- A user whose stored email contains uppercase letters. -/
def uUpper : User := { u0 with email := some "A@B.COM" }

/-- A role catalog entry outside the three canonical names that
carries the default flag. -/
def extraRole : Role := ⟨some "Extra", true, some 0⟩

/-- An empty post row. -/
def post0 : Post := ⟨none, none, none, none, none⟩

/-- Plaintext-retention predicate: some string-valued user attribute
holds the string `s` (the stored hash holds only the salt and the
numeric digest, so the plaintext could only survive in these). -/
def retainsPlaintext (u : User) (s : String) : Prop :=
  u.username = some s ∨ u.email = some s ∨ u.name = some s ∨
  u.location = some s ∨ u.about_me = some s

instance (u : User) (s : String) : Decidable (retainsPlaintext u s) := by
  unfold retainsPlaintext
  infer_instance

instance {ε α : Type} [DecidableEq ε] [DecidableEq α] : DecidableEq (Except ε α) :=
  fun x y =>
    match x, y with
    | .ok a, .ok b =>
      if h : a = b then isTrue (by rw [h])
      else isFalse (fun hc => h (Except.ok.inj hc))
    | .error a, .error b =>
      if h : a = b then isTrue (by rw [h])
      else isFalse (fun hc => h (Except.error.inj hc))
    | .ok _, .error _ => isFalse (fun hc => Except.noConfusion hc)
    | .error _, .ok _ => isFalse (fun hc => Except.noConfusion hc)

/-! Claim theorems. -/

/-- Claim C1: for a user whose assigned role has permission bitmask
`r`, `can(p)` returns true iff `(r & p) == p`; with no role assigned
`can(p)` returns false; a role with the administrator mask `0xff`
satisfies `can(p)` for every defined permission constant. -/
theorem user_can_spec (p : Nat) :
    (∀ u : User, u.itsrole = none → u.can p = .ok false) ∧
    (∀ (u : User) (r : Role) (rp : Nat),
       u.itsrole = some r → r.permissions = some rp →
       (u.can p = .ok true ↔ (rp &&& p) = p)) ∧
    (∀ (u : User) (r : Role), u.itsrole = some r → r.permissions = some 0xff →
       ∀ q ∈ definedPermissions, u.can q = .ok true) := by
  refine ⟨?_, ?_, ?_⟩
  · intro u h
    simp [User.can, h]
  · intro u r rp h1 h2
    simp [User.can, h1, h2]
  · intro u r h1 h2 q hq
    simp only [definedPermissions, List.mem_cons, List.mem_singleton,
      List.not_mem_nil, or_false] at hq
    rcases hq with rfl | rfl | rfl | rfl | rfl <;> simp [User.can, h1, h2] <;> decide

/-- Witness for C1 at concrete users. -/
theorem user_can_spec_witness :
    u0.can 3 = .ok false ∧
    ({ u0 with itsrole := some roleUserC } : User).can 3 = .ok true ∧
    ({ u0 with itsrole := some roleAdminC } : User).can 8 = .ok true := by
  refine ⟨(user_can_spec 3).1 u0 rfl, ?_, ?_⟩
  · exact ((user_can_spec 3).2.1 _ roleUserC 7 rfl rfl).mpr (by decide)
  · exact (user_can_spec 8).2.2 _ roleAdminC rfl rfl 8 (by decide)

/-- Claim C2 (amended): `confirm` returns false with the user unchanged
on any verification error from `loads` and on a payload whose
`'confirm'` entry differs from the user's id; otherwise it sets
`confirmed` and returns true.  A token generated for `A`, confirmed
against a user `B` whose id differs from `A`'s, fails and leaves `B`
unchanged (for users with equal - including both-NULL - ids the
payload check does not discriminate); a self-confirmation inside the
expiry window succeeds; an expired token always fails. -/
theorem confirm_spec :
    (∀ (u : User) (key : String) (now : Nat) (tok : Token) (e : PyErr),
       loadsTimed key now tok = .error e → u.confirm key now tok = (u, false)) ∧
    (∀ (u : User) (key : String) (now : Nat) (tok : Token) (data : Option Nat),
       loadsTimed key now tok = .ok data → data ≠ u.id →
       u.confirm key now tok = (u, false)) ∧
    (∀ (u : User) (key : String) (now : Nat) (tok : Token) (data : Option Nat),
       loadsTimed key now tok = .ok data → data = u.id →
       u.confirm key now tok = ({ u with confirmed := true }, true)) ∧
    (∀ (a b : User) (key : String) (t0 exp now : Nat), a.id ≠ b.id →
       b.confirm key now (a.generate_confirm_token key t0 exp) = (b, false)) ∧
    (∀ (a : User) (key : String) (t0 exp now : Nat), now ≤ t0 + exp →
       a.confirm key now (a.generate_confirm_token key t0 exp) =
         ({ a with confirmed := true }, true)) ∧
    (∀ (u : User) (key k2 : String) (e2 : Nat) (p2 : Option Nat) (now : Nat),
       e2 < now → u.confirm key now (.signed k2 e2 p2) = (u, false)) := by
  refine ⟨?_, ?_, ?_, ?_, ?_, ?_⟩
  · intro u key now tok e h
    simp [User.confirm, h]
  · intro u key now tok data h hne
    simp [User.confirm, h, hne]
  · intro u key now tok data h heq
    simp [User.confirm, h, heq]
  · intro a b key t0 exp now hne
    by_cases hexp : t0 + exp < now
    · simp [User.confirm, User.generate_confirm_token, loadsTimed, hexp]
    · simp [User.confirm, User.generate_confirm_token, loadsTimed, hexp, hne]
  · intro a key t0 exp now hexp
    have hlt : ¬ (t0 + exp < now) := by omega
    simp [User.confirm, User.generate_confirm_token, loadsTimed, hlt]
  · intro u key k2 e2 p2 now hlt
    by_cases hk : k2 ≠ key
    · simp [User.confirm, loadsTimed, hk]
    · simp [User.confirm, loadsTimed, hk, hlt]

/-- Witness for C2's amended theorem at concrete users and tokens. -/
theorem confirm_spec_witness :
    uA.confirm "k" 5000 (Token.signed "k" 10 none) = (uA, false) ∧
    uA.confirm "k" 0 (uA.generate_confirm_token "k" 0 3600) =
      ({ uA with confirmed := true }, true) := by
  refine ⟨?_, ?_⟩
  · exact confirm_spec.2.2.2.2.2 uA "k" "k" 10 none 5000 (by decide)
  · exact confirm_spec.2.2.2.2.1 uA "k" 0 3600 0 (by decide)

/-- Counterexample to C2 as stated: `uA` and `uB` are distinct users
(both unpersisted, NULL ids); the token generated for `uA` is accepted
by `uB.confirm`, which returns true and sets `uB.confirmed`. -/
theorem confirm_cross_user_counterexample :
    uA ≠ uB ∧
    uB.confirmed = false ∧
    (uB.confirm "k" 0 (uA.generate_confirm_token "k" 0 3600)).2 = true ∧
    (uB.confirm "k" 0 (uA.generate_confirm_token "k" 0 3600)).1.confirmed = true := by
  refine ⟨by decide, rfl, rfl, rfl⟩

/-- Claim C3 (amended): for every starting catalog in which each
canonical name occurs at most once (the unique-name constraint) and
every role with the default flag set bears one of the three canonical
names, after `insert_roles` exactly one role has the default flag, the
three canonical roles occur exactly once each with their canonical
bitmasks and default flags, no other names change multiplicity, and
`insert_roles` is idempotent. -/
theorem insert_roles_spec (c : List Role)
    (hU : occurs "User" c ≤ 1) (hM : occurs "Moderare" c ≤ 1)
    (hA : occurs "Administrator" c ≤ 1)
    (hD : ∀ r ∈ c, r.default = true →
      r.name = some "User" ∨ r.name = some "Moderare" ∨
      r.name = some "Administrator") :
    countDefault (Role.insert_roles c) = 1 ∧
    occurs "User" (Role.insert_roles c) = 1 ∧
    occurs "Moderare" (Role.insert_roles c) = 1 ∧
    occurs "Administrator" (Role.insert_roles c) = 1 ∧
    (∀ m : String, m ≠ "User" → m ≠ "Moderare" → m ≠ "Administrator" →
      occurs m (Role.insert_roles c) = occurs m c) ∧
    (∀ r ∈ Role.insert_roles c,
      (r.name = some "User" → r.default = true ∧ r.permissions = some 7) ∧
      (r.name = some "Moderare" → r.default = false ∧ r.permissions = some 15) ∧
      (r.name = some "Administrator" → r.default = false ∧ r.permissions = some 255)) ∧
    Role.insert_roles (Role.insert_roles c) = Role.insert_roles c := by
  obtain ⟨hoU, hoM, hoA⟩ := occurs_insert_roles_canonical hU hM hA
  have hmem := fun {r} hr => mem_insert_roles hU hM hA (r := r) hr
  have hvals : ∀ r ∈ Role.insert_roles c,
      (r.name = some "User" → r.default = true ∧ r.permissions = some 7) ∧
      (r.name = some "Moderare" → r.default = false ∧ r.permissions = some 15) ∧
      (r.name = some "Administrator" → r.default = false ∧ r.permissions = some 255) := by
    intro r hr
    rcases hmem hr with ⟨_, hn1, hn2, hn3⟩ | ⟨hn, h1, h2⟩ | ⟨hn, h1, h2⟩ | ⟨hn, h1, h2⟩
    · exact ⟨fun h => absurd h hn1, fun h => absurd h hn2, fun h => absurd h hn3⟩
    · refine ⟨fun _ => ⟨h1, h2⟩, fun hh => ?_, fun hh => ?_⟩ <;>
        (rw [hn] at hh; simp at hh)
    · refine ⟨fun hh => ?_, fun _ => ⟨h1, h2⟩, fun hh => ?_⟩ <;>
        (rw [hn] at hh; simp at hh)
    · refine ⟨fun hh => ?_, fun hh => ?_, fun _ => ⟨h1, h2⟩⟩ <;>
        (rw [hn] at hh; simp at hh)
  have hcount : countDefault (Role.insert_roles c) = 1 := by
    have hext : List.countP (fun r => r.default) (Role.insert_roles c) =
        List.countP (fun r => decide (r.name = some "User")) (Role.insert_roles c) := by
      apply countP_eq_of_mem
      intro r hr
      rcases hmem hr with ⟨hrc, hn1, hn2, hn3⟩ | ⟨hn, h1, _⟩ | ⟨hn, h1, _⟩ | ⟨hn, h1, _⟩
      · have : r.default ≠ true := by
          intro hd
          rcases hD r hrc hd with h | h | h
          · exact hn1 h
          · exact hn2 h
          · exact hn3 h
        simp [this, hn1]
      · simp [hn, h1]
      · have : ¬ (r.name = some "User") := by rw [hn]; simp
        simp [h1, this]
      · have : ¬ (r.name = some "User") := by rw [hn]; simp
        simp [h1, this]
    unfold countDefault
    rw [hext]
    exact hoU
  have hother : ∀ m : String, m ≠ "User" → m ≠ "Moderare" → m ≠ "Administrator" →
      occurs m (Role.insert_roles c) = occurs m c := by
    intro m h1 h2 h3
    rw [insert_roles_eq, occurs_setRole_other h3, occurs_setRole_other h2,
      occurs_setRole_other h1]
  exact ⟨hcount, hoU, hoM, hoA, hother, hvals, insert_roles_idem c⟩

/-- Witness for C3's amended theorem at the empty catalog. -/
theorem insert_roles_spec_witness :
    countDefault (Role.insert_roles []) = 1 ∧
    occurs "User" (Role.insert_roles []) = 1 ∧
    occurs "Moderare" (Role.insert_roles []) = 1 ∧
    occurs "Administrator" (Role.insert_roles []) = 1 ∧
    (∀ m : String, m ≠ "User" → m ≠ "Moderare" → m ≠ "Administrator" →
      occurs m (Role.insert_roles []) = occurs m []) ∧
    (∀ r ∈ Role.insert_roles [],
      (r.name = some "User" → r.default = true ∧ r.permissions = some 7) ∧
      (r.name = some "Moderare" → r.default = false ∧ r.permissions = some 15) ∧
      (r.name = some "Administrator" → r.default = false ∧ r.permissions = some 255)) ∧
    Role.insert_roles (Role.insert_roles []) = Role.insert_roles [] :=
  insert_roles_spec [] (by decide) (by decide) (by decide) (by simp)

/-- Counterexample to C3 as stated: a starting catalog holding a
non-canonical role with the default flag set ends up with two default
roles after `insert_roles`, not exactly one. -/
theorem insert_roles_default_counterexample :
    countDefault (Role.insert_roles [extraRole]) = 2 ∧
    countDefault (Role.insert_roles [extraRole]) ≠ 1 := by
  refine ⟨by decide, by decide⟩

/-- Claim C4: reading the password property raises an attribute error
unconditionally; assigning a password stores only the salted hash in
`password_hash`, leaves every other attribute unchanged, and retains
the plaintext in no attribute. -/
theorem password_property_spec (u : User) (salt s : String) :
    u.password = .error (.attributeError "password is not a readable attribute") ∧
    (u.setPassword salt s).password_hash = some (generate_password_hash salt s) ∧
    (u.setPassword salt s).id = u.id ∧
    (u.setPassword salt s).username = u.username ∧
    (u.setPassword salt s).email = u.email ∧
    (u.setPassword salt s).itsrole = u.itsrole ∧
    (u.setPassword salt s).confirmed = u.confirmed ∧
    (u.setPassword salt s).name = u.name ∧
    (u.setPassword salt s).location = u.location ∧
    (u.setPassword salt s).about_me = u.about_me ∧
    (¬ retainsPlaintext u s → ¬ retainsPlaintext (u.setPassword salt s) s) := by
  refine ⟨rfl, rfl, rfl, rfl, rfl, rfl, rfl, rfl, rfl, rfl, ?_⟩
  intro h hc
  apply h
  simpa [retainsPlaintext, User.setPassword] using hc

/-- Witness for C4 at a concrete user and password. -/
theorem password_property_spec_witness :
    u0.password = .error (.attributeError "password is not a readable attribute") ∧
    ¬ retainsPlaintext (u0.setPassword "na" "secret") "secret" := by
  refine ⟨(password_property_spec u0 "na" "secret").1, ?_⟩
  exact (password_property_spec u0 "na" "secret").2.2.2.2.2.2.2.2.2.2 (by decide)

/-- Claim C5: immediately after setting the password to `s`,
`verify_password s` returns true and `verify_password s'` returns
false for every `s' ≠ s`. -/
theorem verify_password_roundtrip (u : User) (salt s s' : String) (h : s' ≠ s) :
    (u.setPassword salt s).verify_password s = .ok true ∧
    (u.setPassword salt s).verify_password s' = .ok false := by
  constructor
  · simp [User.setPassword, User.verify_password, check_password_hash,
      generate_password_hash]
  · simp only [User.setPassword, User.verify_password, check_password_hash,
      generate_password_hash]
    simp only [Except.ok.injEq, beq_eq_false_iff_ne, ne_eq]
    intro hc
    exact h (pwDigest_inj_password hc).symm

/-- Witness for C5 at a concrete user and password pair. -/
theorem verify_password_roundtrip_witness :
    ("x" : String) ≠ "secret" ∧
    (u0.setPassword "na" "secret").verify_password "secret" = .ok true ∧
    (u0.setPassword "na" "secret").verify_password "x" = .ok false := by
  refine ⟨by decide, ?_, ?_⟩
  · exact (verify_password_roundtrip u0 "na" "secret" "x" (by decide)).1
  · exact (verify_password_roundtrip u0 "na" "secret" "x" (by decide)).2

/-- Claim C6 (amended): `gravatar` builds its URL from the MD5 hex
digest of the email exactly as stored (the code does not lowercase
it), with the secure host iff the request is secure, by pure string
derivation. -/
theorem gravatar_spec (u : User) (e : String) (sec : Bool) (size : Nat)
    (d r : String) (h : u.email = some e) :
    u.gravatar sec size d r =
      .ok ((if sec then "https://secure.gravatar.com/avatar"
            else "http://www.gravatar.com/avatar") ++ "/" ++ md5Hex e ++
           "?s=" ++ toString size ++ "&r=" ++ r ++ "&d=" ++ d) := by
  simp [User.gravatar, h]

/-- Witness for C6's amended theorem at a concrete user. -/
theorem gravatar_spec_witness :
    uUpper.gravatar true 100 "identicon" "g" =
      .ok ((if true then "https://secure.gravatar.com/avatar"
            else "http://www.gravatar.com/avatar") ++ "/" ++ md5Hex "A@B.COM" ++
           "?s=" ++ toString 100 ++ "&r=" ++ "g" ++ "&d=" ++ "identicon") :=
  gravatar_spec uUpper "A@B.COM" true 100 "identicon" "g" rfl

/-- Counterexample to C6 as stated: for an email stored with uppercase
letters, the URL the code builds differs from the URL built from the
digest of the lowercase email that the claim prescribes. -/
theorem gravatar_lowercase_counterexample :
    uUpper.gravatar false 100 "identicon" "g" ≠
      gravatarSpecLower uUpper false 100 "identicon" "g" := by
  decide

/-- Claim C7 (amended): `body_html` is the rendering of the cleaned
token stream; every tag surviving the pipeline is on the allow-list
with only allow-listed attributes - in particular no `script` tag and
no `onerror` attribute ever survives; stripping removes disallowed
tags but keeps their character data, so the body
`"<script>alert(1)</script>hello"` yields
`"alert(1)\n\n<p>hello</p>"` (markdown splits the trailing text into
its own paragraph block; clean drops the script tags but keeps their
inner text), not a `body_html` containing only `"hello"`. -/
theorem body_html_sanitization :
    (∀ (p : Post) (v : String),
       (p.setBody v).body_html = some (renderToks (bodyToks v))) ∧
    (∀ (v : String) (t : HtmlTok), t ∈ bodyToks v → tokSafe t) ∧
    (∀ (v nm : String) (attrs : List (String × String)) (cl : Bool),
       HtmlTok.tag nm attrs cl ∈ bodyToks v →
       nm ≠ "script" ∧ ∀ a ∈ attrs, a.1 ≠ "onerror") ∧
    (post0.setBody "<script>alert(1)</script>hello").body_html =
      some "alert(1)\n\n<p>hello</p>" := by
  refine ⟨fun p v => rfl, fun v t ht => mem_bodyToks_safe ht, ?_, by decide⟩
  intro v nm attrs cl ht
  obtain ⟨hn, hattrs⟩ := mem_bodyToks_safe ht
  exact ⟨allow_tags_ne_script nm hn,
    fun a ha => allowed_attributes_ne_onerror nm a.1 (hattrs a ha)⟩

/-- Witness for C7's amended theorem at a concrete post and body. -/
theorem body_html_sanitization_witness :
    (post0.setBody "hello").body_html = some (renderToks (bodyToks "hello")) ∧
    tokSafe (HtmlTok.tag "p" [] false) :=
  ⟨body_html_sanitization.1 post0 "hello",
   body_html_sanitization.2.1 "hello" (HtmlTok.tag "p" [] false) (by decide)⟩

/-- Counterexample to C7 as stated: the script body yields
`"alert(1)\n\n<p>hello</p>"` - the stripped script tags' inner text
`"alert(1)"` is kept, and markdown has placed `"hello"` in its own
paragraph - not a `body_html` containing only the text `"hello"`. -/
theorem body_html_script_counterexample :
    (post0.setBody "<script>alert(1)</script>hello").body_html =
      some "alert(1)\n\n<p>hello</p>" ∧
    ("alert(1)\n\n<p>hello</p>" : String) ≠ "hello" := by
  refine ⟨by decide, by decide⟩

/-- Claim C8: a user constructed without a role gets the first
`0xff`-permission role when its email equals the configured admin
email and the first default-flagged role otherwise; if the lookup
finds nothing the role is silently null and no error is raised. -/
theorem user_init_role_assignment (base : User) (admin : String)
    (catalog : List Role) (h : base.itsrole = none) :
    (base.email = some admin →
       ((base.init admin catalog).itsrole = none ∧
          ∀ r ∈ catalog, r.permissions ≠ some 0xff) ∨
       (∃ r, (base.init admin catalog).itsrole = some r ∧ r ∈ catalog ∧
          r.permissions = some 0xff)) ∧
    (base.email ≠ some admin →
       ((base.init admin catalog).itsrole = none ∧
          ∀ r ∈ catalog, r.default ≠ true) ∨
       (∃ r, (base.init admin catalog).itsrole = some r ∧ r ∈ catalog ∧
          r.default = true)) := by
  constructor
  · intro hem
    rcases hfind : firstPerm255 catalog with _ | r
    · refine Or.inl ⟨?_, ?_⟩
      · simp [User.init, h, hem, hfind]
      · intro r hr hperm
        have := List.find?_eq_none.mp hfind r hr
        simp [hperm] at this
    · refine Or.inr ⟨r, ?_, List.mem_of_find?_eq_some hfind, ?_⟩
      · simp [User.init, h, hem, hfind]
      · have := List.find?_some hfind
        simpa using this
  · intro hem
    rcases hfind : firstDefault catalog with _ | r
    · refine Or.inl ⟨?_, ?_⟩
      · simp [User.init, h, hem, hfind]
      · intro r hr hd
        have := List.find?_eq_none.mp hfind r hr
        simp [hd] at this
    · refine Or.inr ⟨r, ?_, List.mem_of_find?_eq_some hfind, ?_⟩
      · simp [User.init, h, hem, hfind]
      · exact List.find?_some hfind

/-- Witness for C8 at a concrete user and catalog. -/
theorem user_init_role_assignment_witness :
    ((u0.init "adm@x" [roleUserC, roleAdminC]).itsrole = none ∧
       ∀ r ∈ [roleUserC, roleAdminC], r.default ≠ true) ∨
    (∃ r, (u0.init "adm@x" [roleUserC, roleAdminC]).itsrole = some r ∧
       r ∈ [roleUserC, roleAdminC] ∧ r.default = true) :=
  (user_init_role_assignment u0 "adm@x" [roleUserC, roleAdminC] rfl).2 (by decide)

/-- Claim C9: with a role whose permissions column is NULL - exactly
what `Role.seed` commits for `Guests` and `Administrator` - `can`
raises a type error instead of returning a boolean, for every
requested permission; `can` returns a boolean only when the bitmask is
an integer. -/
theorem can_null_permissions_type_error (u : User) (r : Role) (p : Nat)
    (h1 : u.itsrole = some r) (h2 : r.permissions = none) :
    u.can p = .error .typeError ∧
    (∀ r' ∈ Role.seed [], r'.permissions = none) ∧
    (∀ b : Bool, u.can p ≠ .ok b) := by
  refine ⟨by simp [User.can, h1, h2], by decide, ?_⟩
  intro b
  simp [User.can, h1, h2]

/-- Witness for C9 at a user holding the seeded `Guests` role. -/
theorem can_null_permissions_type_error_witness :
    ({ u0 with itsrole := some roleGuests } : User).can 1 = .error .typeError ∧
    (∀ r' ∈ Role.seed [], r'.permissions = none) ∧
    (∀ b : Bool, ({ u0 with itsrole := some roleGuests } : User).can 1 ≠ .ok b) :=
  can_null_permissions_type_error _ roleGuests 1 rfl rfl

/-- Claim C10: for two users whose ids are both NULL, a confirmation
token generated by the first is accepted by the second: the payload's
NULL `confirm` entry equals the NULL id, so `confirm` sets the flag
and returns true. -/
theorem confirm_null_id_cross_user (a b : User) (key : String)
    (t0 exp now : Nat) (ha : a.id = none) (hb : b.id = none)
    (hexp : now ≤ t0 + exp) :
    b.confirm key now (a.generate_confirm_token key t0 exp) =
      ({ b with confirmed := true }, true) := by
  have hlt : ¬ (t0 + exp < now) := by omega
  simp [User.confirm, User.generate_confirm_token, loadsTimed, ha, hb, hlt]

/-- Witness for C10 at the concrete unpersisted users `uA`, `uB`. -/
theorem confirm_null_id_cross_user_witness :
    uB.confirm "k" 10 (uA.generate_confirm_token "k" 0 3600) =
      ({ uB with confirmed := true }, true) :=
  confirm_null_id_cross_user uA uB "k" 0 3600 10 rfl rfl (by decide)

end FlaskBlog
